import Mathlib

/-!
Shallow embedding of the StyleGAN2 generator building blocks from
src/project/stylegan2_network.py: the fully connected layer's
construction-time dispatch, the conditional mapping network's layer stack,
the noise-injection module, and the modulated convolution (style modulation,
demodulation, and the grouped-convolution trick), together with a
shape-level semantics of ModulatedConv2d.forward.

Tensors are embedded as curried functions from natural-number indices to
values, with shapes carried as explicit parameters; float arithmetic is
idealised as real (or, where only ring operations occur, rational)
arithmetic. Fallible construction steps are embedded as Except values
mirroring the ValueError raises and the shape checks PyTorch performs.
-/

/-! ### FullyConnectedLayer (construction-time dispatch) -/

/-- Activation choices dispatched by FullyConnectedLayer.get_activation_fn. -/
inductive ActKind where
  | relu
  | leakyRelu
  | elu
  | gelu
  | swish
  | linear
deriving DecidableEq, Repr

/-- Weight-initialisation choices dispatched by FullyConnectedLayer.reset_parameters. -/
inductive InitKind where
  | xavier
  | kaiming
  | orthogonal
deriving DecidableEq, Repr

/-- `get_activation_fn`: returns the activation selected by name, or the
ValueError raised for an unsupported name (the chain of conditionals
mirrors the source's dispatch order). -/
def get_activation_fn (activation : String) : Except String ActKind :=
  if activation = "relu" then Except.ok ActKind.relu
  else if activation = "leaky_relu" then Except.ok ActKind.leakyRelu
  else if activation = "elu" then Except.ok ActKind.elu
  else if activation = "gelu" then Except.ok ActKind.gelu
  else if activation = "swish" then Except.ok ActKind.swish
  else if activation = "linear" then Except.ok ActKind.linear
  else Except.error ("Unsupported activation function: " ++ activation)

/-- `reset_parameters`: the weight-initialisation dispatch, which raises a
ValueError for an unsupported method name. -/
def reset_parameters (weight_init : String) : Except String InitKind :=
  if weight_init = "xavier" then Except.ok InitKind.xavier
  else if weight_init = "kaiming" then Except.ok InitKind.kaiming
  else if weight_init = "orthogonal" then Except.ok InitKind.orthogonal
  else Except.error ("Unsupported weight initialisation: " ++ weight_init)

/-- The configuration state a successfully constructed FullyConnectedLayer holds. -/
structure FullyConnectedLayer where
  in_features : ℕ
  out_features : ℕ
  hasBias : Bool
  act : ActKind
  winit : InitKind
  hasDropout : Bool
  hasBatchNorm : Bool
  hasLayerNorm : Bool
deriving DecidableEq, Repr

/-- `FullyConnectedLayer.__init__`: records the configuration, runs
`reset_parameters` (weight-initialisation dispatch) and then
`get_activation_fn`, in the source's order, propagating the first
ValueError. Dropout is stored only when the rate is positive. -/
def FullyConnectedLayer.init (in_features out_features : ℕ) (bias : Bool)
    (activation weight_init : String) (dropout : ℚ)
    (batch_norm layer_norm : Bool) : Except String FullyConnectedLayer :=
  match reset_parameters weight_init with
  | Except.error e => Except.error e
  | Except.ok wk =>
    match get_activation_fn activation with
    | Except.error e => Except.error e
    | Except.ok ak =>
        Except.ok ⟨in_features, out_features, bias, ak, wk,
          decide (0 < dropout), batch_norm, layer_norm⟩

/-! ### MappingNetwork (construction) -/

/-- The state a constructed MappingNetwork holds: the embedding table's
dimensions and the stack of fully connected layers. -/
structure MappingNetwork where
  z_dim : ℕ
  w_dim : ℕ
  label_dim : ℕ
  layers : List FullyConnectedLayer
deriving DecidableEq, Repr

/-- `MappingNetwork.__init__`: builds one FullyConnectedLayer per index in
`range num_layers` (first layer z_dim→w_dim, later layers w_dim→w_dim, each
with leaky_relu activation, kaiming initialisation, the shared dropout rate
and batch normalisation), then records the label-embedding dimensions. -/
def MappingNetwork.init (z_dim w_dim num_layers label_dim : ℕ) (dropout : ℚ) :
    Except String MappingNetwork :=
  match (List.range num_layers).mapM
      (fun i => FullyConnectedLayer.init (if i = 0 then z_dim else w_dim) w_dim
        true "leaky_relu" "kaiming" dropout true false) with
  | Except.error e => Except.error e
  | Except.ok layers => Except.ok ⟨z_dim, w_dim, label_dim, layers⟩

/-! ### NoiseInjection

The module owns a per-channel scale of shape (1, C, 1, 1), embedded as a
function from the channel index. `forward` either consumes the supplied
noise tensor of shape (N, 1, H, W), or draws fresh standard-normal values
from the ambient random stream `g` starting at position `pos`, advancing
the stream position by the number of values drawn. The returned pair is
(output tensor, new stream position). -/

/-- `torch.zeros(1, channels, 1, 1)`: the per-channel noise scale a freshly
constructed NoiseInjection holds. -/
def NoiseInjection.initWeight {α : Type} [CommRing α] : ℕ → α := fun _ => 0

/-- `NoiseInjection.forward`: output[n][c][h][w] = x[n][c][h][w] +
weight[c] * noise[n][0][h][w], the (1,C,1,1) scale and (N,1,H,W) noise
broadcast across the (N,C,H,W) input. When no noise is supplied, it is
drawn from the stream `g` at the flattened (n,h,w) offsets and the stream
position advances by N·H·W; a supplied noise tensor leaves the stream
untouched. -/
def NoiseInjection.forward {α : Type} [CommRing α] (N C H W : ℕ)
    (weight : ℕ → α) (x : ℕ → ℕ → ℕ → ℕ → α)
    (noise : Option (ℕ → ℕ → ℕ → ℕ → α)) (g : ℕ → α) (pos : ℕ) :
    (ℕ → ℕ → ℕ → ℕ → α) × ℕ :=
  match noise with
  | some nz => (fun n c h w => x n c h w + weight c * nz n 0 h w, pos)
  | none =>
      (fun n c h w => x n c h w + weight c * g (pos + (n * H + h) * W + w),
        pos + N * H * W)

/-! ### ModulatedConv2d: style modulation and demodulation (value level) -/

/-- `self.modulation(style)` with `nn.Linear(style_dim, in_channels,
bias=False)`: out[n][c] = Σ_d A[c][d] · style[n][d]. -/
def modulation (style_dim : ℕ) (A : ℕ → ℕ → ℝ) (style : ℕ → ℕ → ℝ) :
    ℕ → ℕ → ℝ :=
  fun n c => ∑ d ∈ Finset.range style_dim, A c d * style n d

/-- `self.scale = 1 / math.sqrt(in_channels * kernel_size ** 2)`. -/
noncomputable def ModulatedConv2d.scale (in_channels kernel_size : ℕ) : ℝ :=
  1 / Real.sqrt ((in_channels : ℝ) * (kernel_size : ℝ) ^ 2)

/-- `weight = self.scale * self.weight.unsqueeze(0) * style.unsqueeze(1)`:
the per-sample modulated kernel, element (n, o, c, i, j) =
scale · W[o][c][i][j] · s[n][c]. -/
def modulatedWeight (scale : ℝ) (W : ℕ → ℕ → ℕ → ℕ → ℝ) (s : ℕ → ℕ → ℝ) :
    ℕ → ℕ → ℕ → ℕ → ℕ → ℝ :=
  fun n o c i j => scale * W o c i j * s n c

/-- `weight.pow(2).sum([2, 3, 4])`: the kernel energy of the (n, o) slice,
summed over the (C_in, k, k) axes. -/
def kernelEnergy (in_channels kernel_size : ℕ)
    (w : ℕ → ℕ → ℕ → ℕ → ℕ → ℝ) (n o : ℕ) : ℝ :=
  ∑ c ∈ Finset.range in_channels, ∑ i ∈ Finset.range kernel_size,
    ∑ j ∈ Finset.range kernel_size, (w n o c i j) ^ 2

/-- The additive epsilon `1e-8` in the demodulation denominator. -/
noncomputable def demodEps : ℝ := 1 / 10 ^ 8

/-- `torch.rsqrt`: reciprocal square root. -/
noncomputable def rsqrt (x : ℝ) : ℝ := (Real.sqrt x)⁻¹

/-- `demod = torch.rsqrt(weight.pow(2).sum([2,3,4]) + 1e-8)`. -/
noncomputable def demodFactor (in_channels kernel_size : ℕ)
    (w : ℕ → ℕ → ℕ → ℕ → ℕ → ℝ) (n o : ℕ) : ℝ :=
  rsqrt (kernelEnergy in_channels kernel_size w n o + demodEps)

/-- `weight = weight * demod.view(batch, out_channels, 1, 1, 1)`. -/
noncomputable def demodulatedWeight (in_channels kernel_size : ℕ)
    (w : ℕ → ℕ → ℕ → ℕ → ℕ → ℝ) : ℕ → ℕ → ℕ → ℕ → ℕ → ℝ :=
  fun n o c i j => w n o c i j * demodFactor in_channels kernel_size w n o

/-! ### Grouped convolution and the reshaping trick (value level)

`F.conv2d` with zero padding `pad`, stride `stride` and `groups` groups:
the weight has shape (coutTotal, cinPerGroup, k, k), the input
(1, groups·cinPerGroup, H, W); output channel `o` belongs to group
`o / (coutTotal / groups)` and reads input channels
`group · cinPerGroup + c`. Values are taken in ℚ: the claim is about the
ring operations of the convolution, which floats, reals and rationals
share. -/

/-- Zero-padded access into an H×W spatial slice at integer coordinates. -/
def padGet (H W : ℕ) (f : ℕ → ℕ → ℚ) (r q : ℤ) : ℚ :=
  if 0 ≤ r ∧ r < (H : ℤ) ∧ 0 ≤ q ∧ q < (W : ℤ) then f r.toNat q.toNat else 0

/-- `F.conv2d(x, w, padding=pad, stride=stride, groups=groups)` on an input
of batch size 1: out[o][oy][ox] = Σ_{c,i,j} w[o][c][i][j] ·
xPadded[group(o)·cinPerGroup + c][oy·stride + i − pad][ox·stride + j − pad]. -/
def conv2dGrouped (groups cinPerGroup coutTotal kernel_size pad stride H W : ℕ)
    (x : ℕ → ℕ → ℕ → ℚ) (w : ℕ → ℕ → ℕ → ℕ → ℚ) : ℕ → ℕ → ℕ → ℚ :=
  fun o oy ox =>
    ∑ c ∈ Finset.range cinPerGroup, ∑ i ∈ Finset.range kernel_size,
      ∑ j ∈ Finset.range kernel_size,
        w o c i j *
          padGet H W (x ((o / (coutTotal / groups)) * cinPerGroup + c))
            ((oy : ℤ) * (stride : ℤ) + (i : ℤ) - (pad : ℤ))
            ((ox : ℤ) * (stride : ℤ) + (j : ℤ) - (pad : ℤ))

/-- Ordinary (ungrouped) 2-D convolution of one sample: `F.conv2d` with
`groups = 1`. -/
def conv2d (cin cout kernel_size pad stride H W : ℕ)
    (x : ℕ → ℕ → ℕ → ℚ) (w : ℕ → ℕ → ℕ → ℕ → ℚ) : ℕ → ℕ → ℕ → ℚ :=
  conv2dGrouped 1 cin cout kernel_size pad stride H W x w

/-- `x.reshape(1, batch * in_channels, height, width)`: row-major fold of
the batch axis into the channel axis, flat channel n·cin + c ↦ (n, c). -/
def foldBatchIntoChannels (cin : ℕ) (x : ℕ → ℕ → ℕ → ℕ → ℚ) :
    ℕ → ℕ → ℕ → ℚ :=
  fun ch => x (ch / cin) (ch % cin)

/-- `weight.view(batch * out_channels, in_channels, k, k)`: row-major fold
of the batch axis into the output-channel axis, flat channel
n·cout + o ↦ (n, o). -/
def foldBatchIntoOutChannels (cout : ℕ) (w : ℕ → ℕ → ℕ → ℕ → ℕ → ℚ) :
    ℕ → ℕ → ℕ → ℕ → ℚ :=
  fun o => w (o / cout) (o % cout)

/-- `out.view(batch, out_channels, H, W)`: unfold the flat output-channel
axis back into (batch, out_channels). -/
def unfoldOutput (cout : ℕ) (out : ℕ → ℕ → ℕ → ℚ) : ℕ → ℕ → ℕ → ℕ → ℚ :=
  fun n co => out (n * cout + co)

/-! ### ModulatedConv2d: shape-level semantics of `forward` -/

/-- The constructor arguments of ModulatedConv2d. -/
structure ModConvCfg where
  in_channels : ℕ
  out_channels : ℕ
  kernel_size : ℕ
  style_dim : ℕ
  demodulate : Bool
  up : ℕ
  down : ℕ
  padding : ℕ
deriving DecidableEq, Repr

/-- `stride = (1 / self.up) if self.up > 1 else self.down`, followed by
`stride = int(1 / stride)` when the first expression produced a float:
for up > 1 the double round-trip int(1/(1/up)) evaluates to up itself for
the small integral factors in use, so the effective stride is `up`;
otherwise it is `down`. -/
def ModConvCfg.effStride (cfg : ModConvCfg) : ℕ :=
  if 1 < cfg.up then cfg.up else cfg.down

/-- `padding = self.kernel_size // 2 if self.padding == 0 else self.padding`. -/
def ModConvCfg.effPadding (cfg : ModConvCfg) : ℕ :=
  if cfg.padding = 0 then cfg.kernel_size / 2 else cfg.padding

/-- The spatial output size of `F.conv2d`:
floor((inDim + 2·pad − k) / stride) + 1. -/
def conv2dOutDim (inDim pad kernel_size stride : ℕ) : ℕ :=
  (inDim + 2 * pad - kernel_size) / stride + 1

/-- PyTorch broadcasting of one pair of dimensions: equal sizes, or one of
them 1 (stretched to the other); anything else is an error. -/
def broadcastDim (a b : ℕ) : Option ℕ :=
  if a = b then some a
  else if a = 1 then some b
  else if b = 1 then some a
  else none

/-- Shape-level semantics of `ModulatedConv2d.forward` (noise omitted, which
keeps the convolution output's shape): given the config, the input feature
map's shape (batch, in_channels, height, width) and the style batch's shape
(sBatch, sDim), it either returns the output shape or fails at the first
shape-mismatching step, in the source's order: the modulation linear layer
requires the style's feature size to equal style_dim; the
`.view(batch, in_channels, 1, 1)` of the (sBatch, in_channels) modulation
output requires equal element counts; the product
`W.unsqueeze(0) * style.unsqueeze(1)` broadcasts the config's in_channels
against the input's; the `.view(batch*out_channels, in_channels, k, k)`
again requires equal element counts; the grouped convolution requires a
positive stride and a kernel no larger than the padded input, and maps the
spatial dimensions through `conv2dOutDim`. -/
def modConvForwardShape (cfg : ModConvCfg) (xShape : ℕ × ℕ × ℕ × ℕ)
    (styleShape : ℕ × ℕ) : Except String (ℕ × ℕ × ℕ × ℕ) :=
  match xShape, styleShape with
  | (batch, in_channels, height, width), (sBatch, sDim) =>
    if sDim ≠ cfg.style_dim then
      Except.error "linear: input feature size mismatch"
    else if sBatch * cfg.in_channels ≠ batch * in_channels then
      Except.error "view: shape incompatible with number of elements"
    else
      match broadcastDim cfg.in_channels in_channels with
      | none => Except.error "broadcast: incompatible sizes"
      | some cinB =>
        if batch * cfg.out_channels * cinB * cfg.kernel_size * cfg.kernel_size
            ≠ batch * cfg.out_channels * in_channels * cfg.kernel_size
                * cfg.kernel_size then
          Except.error "view: shape incompatible with number of elements"
        else
          if cfg.effStride = 0 then
            Except.error "conv2d: non-positive stride"
          else if height + 2 * cfg.effPadding < cfg.kernel_size
              ∨ width + 2 * cfg.effPadding < cfg.kernel_size then
            Except.error "conv2d: kernel size exceeds padded input"
          else
            Except.ok (batch, cfg.out_channels,
              conv2dOutDim height cfg.effPadding cfg.kernel_size cfg.effStride,
              conv2dOutDim width cfg.effPadding cfg.kernel_size cfg.effStride)

/-! ### Theorems -/

/-- C3: a ModulatedConv2d with in_channels=32, out_channels=64,
kernel_size=3, style_dim=16, demodulate=True, up=1, down=1 and the default
padding maps a (2, 32, 16, 16) feature map and a (2, 16) style batch to a
(2, 64, 16, 16) feature map. -/
theorem modconv_forward_shape_example :
    modConvForwardShape ⟨32, 64, 3, 16, true, 1, 1, 0⟩ (2, 32, 16, 16) (2, 16)
      = Except.ok (2, 64, 16, 16) := rfl

/-- C4 (code behaviour at the failing input): with up=2, down=1 and default
padding, the effective stride of the convolution is 2, so the forward pass
on a (2, 32, 16, 16) feature map returns a (2, 64, 8, 8) feature map — the
spatial dimensions are halved, not doubled as upsampling by the factor 2
would require. -/
theorem modconv_up2_halves_spatial :
    modConvForwardShape ⟨32, 64, 3, 16, true, 2, 1, 0⟩ (2, 32, 16, 16) (2, 16)
        = Except.ok (2, 64, 8, 8)
      ∧ ModConvCfg.effStride ⟨32, 64, 3, 16, true, 2, 1, 0⟩ = 2 :=
  ⟨rfl, rfl⟩

/-- C7: construction of a FullyConnectedLayer succeeds exactly when the
weight-initialisation name is one of xavier, kaiming, orthogonal and the
activation name is one of linear, relu, leaky_relu, elu, gelu, swish; any
other name (such as tanh) makes construction fail with a configuration
error, before any forward call can exist. -/
theorem fc_init_ok_iff (in_features out_features : ℕ) (bias : Bool)
    (activation weight_init : String) (dropout : ℚ)
    (batch_norm layer_norm : Bool) :
    (FullyConnectedLayer.init in_features out_features bias activation
        weight_init dropout batch_norm layer_norm).isOk = true
      ↔ ((weight_init = "xavier" ∨ weight_init = "kaiming"
            ∨ weight_init = "orthogonal")
          ∧ (activation = "linear" ∨ activation = "relu"
              ∨ activation = "leaky_relu" ∨ activation = "elu"
              ∨ activation = "gelu" ∨ activation = "swish")) := by
  unfold FullyConnectedLayer.init reset_parameters get_activation_fn
  split_ifs <;> simp_all [Except.isOk, Except.toBool]

/-- C8 (code behaviour at the failing input): constructing a MappingNetwork
with num_layers = 0 does not fail; it succeeds and returns a network whose
layer stack is empty, so the forward pass would apply no transform beyond
the label-embedding addition. -/
theorem mapping_network_zero_layers_constructs :
    MappingNetwork.init 8 16 0 4 (1 / 10) = Except.ok ⟨8, 16, 4, []⟩ := rfl

/-- C9: whenever the style batch size differs from the feature map's batch
size (and in_channels is positive), ModulatedConv2d.forward fails at the
`.view(batch, in_channels, 1, 1)` of the modulation output — a
shape-mismatch error, never a silent broadcast. -/
theorem modconv_batch_mismatch_errors (cfg : ModConvCfg) (b h w sb : ℕ)
    (hne : sb ≠ b) (hc : 0 < cfg.in_channels) :
    (modConvForwardShape cfg (b, cfg.in_channels, h, w)
        (sb, cfg.style_dim)).isOk = false := by
  have hmul : sb * cfg.in_channels ≠ b * cfg.in_channels :=
    fun hEq => hne (Nat.eq_of_mul_eq_mul_right hc hEq)
  simp [modConvForwardShape, hmul, Except.isOk, Except.toBool]

/-- C9 witness: the concrete mismatch of a feature map of batch 2 against a
style batch of 3. -/
theorem modconv_batch_mismatch_errors_witness :
    (3 : ℕ) ≠ 2 ∧ 0 < 32 ∧
      (modConvForwardShape ⟨32, 64, 3, 16, true, 1, 1, 0⟩ (2, 32, 16, 16)
          (3, 16)).isOk = false :=
  ⟨by decide, by decide,
    modconv_batch_mismatch_errors ⟨32, 64, 3, 16, true, 1, 1, 0⟩ 2 16 16 3
      (by decide) (by decide)⟩

/-- C6: when a noise tensor is supplied, NoiseInjection.forward returns
exactly x + weight·noise (the per-channel scale broadcast across batch and
spatial axes), leaves the random stream position untouched, and its output
does not depend on the random stream at all: two calls with identical
inputs and parameters return identical outputs. -/
theorem noise_injection_supplied_pure (N C H W : ℕ) (weight : ℕ → ℝ)
    (x nz : ℕ → ℕ → ℕ → ℕ → ℝ) (g g' : ℕ → ℝ) (pos pos' n c h w : ℕ) :
    (NoiseInjection.forward N C H W weight x (some nz) g pos).1 n c h w
        = x n c h w + weight c * nz n 0 h w
      ∧ (NoiseInjection.forward N C H W weight x (some nz) g pos).2 = pos
      ∧ (NoiseInjection.forward N C H W weight x (some nz) g pos).1
        = (NoiseInjection.forward N C H W weight x (some nz) g' pos').1 :=
  ⟨rfl, rfl, rfl⟩

/-- C10: a freshly constructed NoiseInjection has its per-channel scale
initialised to zeros, so its forward pass returns the input unchanged at
every position, whether the noise is supplied or drawn internally. -/
theorem noise_injection_fresh_identity (N C H W : ℕ)
    (x : ℕ → ℕ → ℕ → ℕ → ℝ) (noise : Option (ℕ → ℕ → ℕ → ℕ → ℝ))
    (g : ℕ → ℝ) (pos n c h w : ℕ) :
    (NoiseInjection.forward N C H W NoiseInjection.initWeight x noise
        g pos).1 n c h w = x n c h w := by
  cases noise <;>
    simp [NoiseInjection.forward, NoiseInjection.initWeight]

/-- C1: folding the batch axis of the per-sample kernels into the
output-channel axis, folding the input's batch axis into its channel axis,
running one grouped convolution with groups = N, and unfolding the result
computes, at every sample n and output channel co, exactly the per-sample
convolution of sample n's feature map with sample n's own kernel slice. -/
theorem grouped_conv_equiv_per_sample (N cin cout kernel_size pad stride H W : ℕ)
    (x : ℕ → ℕ → ℕ → ℕ → ℚ) (w : ℕ → ℕ → ℕ → ℕ → ℕ → ℚ)
    (n co oy ox : ℕ) (hN : 0 < N) (hco : co < cout) :
    unfoldOutput cout
      (conv2dGrouped N cin (N * cout) kernel_size pad stride H W
        (foldBatchIntoChannels cin x) (foldBatchIntoOutChannels cout w))
      n co oy ox
    = conv2d cin cout kernel_size pad stride H W (x n) (w n) co oy ox := by
  have hcout : 0 < cout := Nat.lt_of_le_of_lt (Nat.zero_le co) hco
  have hgroups : N * cout / N = cout := Nat.mul_div_cancel_left cout hN
  have hdiv : (n * cout + co) / cout = n := by
    rw [Nat.mul_comm, Nat.mul_add_div hcout, Nat.div_eq_of_lt hco, Nat.add_zero]
  have hmod : (n * cout + co) % cout = co := by
    rw [Nat.mul_comm, Nat.mul_add_mod, Nat.mod_eq_of_lt hco]
  simp only [unfoldOutput, conv2d, conv2dGrouped, foldBatchIntoChannels,
    foldBatchIntoOutChannels]
  simp only [hgroups, hdiv, hmod, Nat.div_one, Nat.div_eq_of_lt hco,
    Nat.zero_mul, Nat.zero_add]
  refine Finset.sum_congr rfl (fun c hc => ?_)
  have hc' : c < cin := Finset.mem_range.mp hc
  have h1 : (n * cin + c) / cin = n := by
    rw [Nat.mul_comm, Nat.mul_add_div (Nat.lt_of_le_of_lt (Nat.zero_le c) hc'),
      Nat.div_eq_of_lt hc', Nat.add_zero]
  have h2 : (n * cin + c) % cin = c := by
    rw [Nat.mul_comm, Nat.mul_add_mod, Nat.mod_eq_of_lt hc']
  simp only [h1, h2]

/-- C1 witness: the equivalence at batch size 2, two output channels, a
1×1 kernel on a 1×1 feature map, sample 1 and output channel 1. -/
theorem grouped_conv_equiv_per_sample_witness :
    0 < 2 ∧ 1 < 2 ∧
      unfoldOutput 2
          (conv2dGrouped 2 1 (2 * 2) 1 0 1 1 1
            (foldBatchIntoChannels 1
              (fun n c y z => ((n + 2 * c + 3 * y + 4 * z : ℕ) : ℚ)))
            (foldBatchIntoOutChannels 2
              (fun n o c i j => ((n + 2 * o + 3 * c + 4 * i + 5 * j : ℕ) : ℚ))))
          1 1 0 0
        = conv2d 1 2 1 0 1 1 1
            ((fun n c y z => ((n + 2 * c + 3 * y + 4 * z : ℕ) : ℚ)) 1)
            ((fun n o c i j => ((n + 2 * o + 3 * c + 4 * i + 5 * j : ℕ) : ℚ)) 1)
            1 0 0 :=
  ⟨by decide, by decide,
    grouped_conv_equiv_per_sample 2 1 2 1 0 1 1 1
      (fun n c y z => ((n + 2 * c + 3 * y + 4 * z : ℕ) : ℚ))
      (fun n o c i j => ((n + 2 * o + 3 * c + 4 * i + 5 * j : ℕ) : ℚ))
      1 1 0 0 (by decide) (by decide)⟩

/-- Sums of squares are nonnegative: the kernel energy of any slice. -/
theorem kernelEnergy_nonneg (in_channels kernel_size : ℕ)
    (w : ℕ → ℕ → ℕ → ℕ → ℕ → ℝ) (n o : ℕ) :
    0 ≤ kernelEnergy in_channels kernel_size w n o := by
  unfold kernelEnergy
  refine Finset.sum_nonneg fun c _ => Finset.sum_nonneg fun i _ =>
    Finset.sum_nonneg fun j _ => sq_nonneg _

/-- Demodulating any per-sample kernel rescales each (sample, output
channel) slice's energy from E to E / (E + 1e-8). -/
theorem kernelEnergy_demod (in_channels kernel_size : ℕ)
    (w : ℕ → ℕ → ℕ → ℕ → ℕ → ℝ) (n o : ℕ) :
    kernelEnergy in_channels kernel_size
        (demodulatedWeight in_channels kernel_size w) n o
      = kernelEnergy in_channels kernel_size w n o
        / (kernelEnergy in_channels kernel_size w n o + demodEps) := by
  have hE0 : 0 ≤ kernelEnergy in_channels kernel_size w n o :=
    kernelEnergy_nonneg in_channels kernel_size w n o
  have heps : (0 : ℝ) < demodEps := by norm_num [demodEps]
  have hpos : 0 < kernelEnergy in_channels kernel_size w n o + demodEps := by
    linarith
  have hd : demodFactor in_channels kernel_size w n o ^ 2
      = (kernelEnergy in_channels kernel_size w n o + demodEps)⁻¹ := by
    rw [demodFactor, rsqrt, inv_pow, Real.sq_sqrt hpos.le]
  have hL : kernelEnergy in_channels kernel_size
        (demodulatedWeight in_channels kernel_size w) n o
      = kernelEnergy in_channels kernel_size w n o
        * demodFactor in_channels kernel_size w n o ^ 2 := by
    unfold kernelEnergy demodulatedWeight
    simp only [mul_pow, ← Finset.sum_mul]
  rw [hL, hd, div_eq_mul_inv]

/-- C2: for every batch, style batch and base kernel, the energy of each
(sample, output-channel) slice of the demodulated kernel equals
E / (E + 1e-8), where E is that slice's energy before demodulation — the
exact value the additive epsilon leaves of the normalised unit energy. -/
theorem demodulated_kernel_energy (in_channels kernel_size style_dim : ℕ)
    (W : ℕ → ℕ → ℕ → ℕ → ℝ) (A : ℕ → ℕ → ℝ) (style : ℕ → ℕ → ℝ) (n o : ℕ) :
    kernelEnergy in_channels kernel_size
        (demodulatedWeight in_channels kernel_size
          (modulatedWeight (ModulatedConv2d.scale in_channels kernel_size) W
            (modulation style_dim A style))) n o
      = kernelEnergy in_channels kernel_size
          (modulatedWeight (ModulatedConv2d.scale in_channels kernel_size) W
            (modulation style_dim A style)) n o
        / (kernelEnergy in_channels kernel_size
            (modulatedWeight (ModulatedConv2d.scale in_channels kernel_size) W
              (modulation style_dim A style)) n o + demodEps) :=
  kernelEnergy_demod in_channels kernel_size _ n o

/-- C5 counterexample: with in_channels = kernel_size = style_dim = 1, an
all-ones base kernel, an all-ones modulation matrix and the all-zero style
vector, the modulated kernel entry is 0, while the base kernel scaled by
the fixed constant 1/sqrt(C_in·k²) alone is 1 — the claim's equality fails.
With no bias in the modulation projection, a zero style yields a zero
per-sample scale, which annihilates the kernel instead of leaving the
fixed scaling. -/
theorem modulated_zero_style_not_scale_only :
    modulatedWeight (ModulatedConv2d.scale 1 1) (fun _ _ _ _ => (1 : ℝ))
        (modulation 1 (fun _ _ => (1 : ℝ)) (fun _ _ => (0 : ℝ))) 0 0 0 0 0
      ≠ ModulatedConv2d.scale 1 1 * (fun _ _ _ _ => (1 : ℝ)) 0 0 0 0 := by
  simp [modulatedWeight, modulation, ModulatedConv2d.scale]

/-- C5 (amended): when the style vector is all zeros and the modulation
projection has no bias, the modulated per-sample kernel (before
demodulation) is identically zero — the zero per-sample scale multiplies
the base kernel and the fixed constant away. -/
theorem modulated_zero_style_eq_zero (in_channels kernel_size style_dim : ℕ)
    (W : ℕ → ℕ → ℕ → ℕ → ℝ) (A : ℕ → ℕ → ℝ) (n o c i j : ℕ) :
    modulatedWeight (ModulatedConv2d.scale in_channels kernel_size) W
        (modulation style_dim A (fun _ _ => 0)) n o c i j = 0 := by
  simp [modulatedWeight, modulation]
